import Mathlib

/-!
Verification of the reactive UI event bus, keyed state store, daily post
quota and daily scroll budget of the Lib-rate application, as a shallow
embedding of the Python source.

Conventions of the embedding:
- dictionaries become total functions with an explicit default, matching
  the dict.get access pattern of the source;
- dates become natural day numbers; the wall clock date used by the
  source via datetime.now().date() is passed in as an explicit argument;
- datetime.now() timestamps on history records become a natural counter
  held in the bus state and incremented once per emission;
- Python callbacks become identifiers (natural numbers, compared by
  identity exactly as Python compares function objects) together with an
  environment mapping an identifier to a pure behaviour that either
  returns or raises (Except);
- the document store is external; its observable behaviour at each call
  site (did the call raise, did update_one modify a document) enters as
  explicit boolean arguments.
-/

/-- Payload carried by an emitted event: the Python value None, an opaque
value, or the state-change dictionary built by set_state with keys key,
old_value and new_value (old_value is None when the key was absent). -/
inductive EData (V : Type) where
  | pynone : EData V
  | val : V → EData V
  | change : String → Option V → V → EData V
deriving DecidableEq

/-- One entry of the event history: the record dict built by
ReactiveUI._add_to_history with keys timestamp, event and data. -/
structure EventRecord (V : Type) where
  timestamp : Nat
  event : String
  data : EData V
deriving DecidableEq

/-- State of one ReactiveUI instance, mirroring the attributes set in
ReactiveUI.__init__ (src/Liberate_app/ui/reactive_ui.py).  The observers
dict, state dict and binding dict are modelled as total functions with
the defaults the source reads through dict.get; clock models the
datetime.now() timestamps recorded in the history. -/
structure ReactiveUI (V : Type) where
  observers : String → List Nat
  state : String → Option V
  event_history : List (EventRecord V)
  max_history : Nat
  ui_elements : String → Option (String × Nat)
  clock : Nat

namespace ReactiveUI

variable {V : Type} [DecidableEq V]

/-- Fresh bus as built by ReactiveUI.__init__: empty observers, empty
state, empty history, capacity 100, no bindings. -/
def initState : ReactiveUI V :=
  { observers := fun _ => []
    state := fun _ => none
    event_history := []
    max_history := 100
    ui_elements := fun _ => none
    clock := 0 }

/-- ReactiveUI.subscribe: append the callback to the event's list unless
the identical callback is already registered. -/
def subscribe (s : ReactiveUI V) (event_name : String) (callback : Nat) :
    ReactiveUI V :=
  let current := s.observers event_name
  if callback ∈ current then s
  else { s with observers := fun e =>
          if e = event_name then current ++ [callback] else s.observers e }

/-- ReactiveUI.unsubscribe: remove the callback if present, no-op
otherwise. -/
def unsubscribe (s : ReactiveUI V) (event_name : String) (callback : Nat) :
    ReactiveUI V :=
  if callback ∈ s.observers event_name then
    { s with observers := fun e =>
        if e = event_name then (s.observers event_name).erase callback
        else s.observers e }
  else s

/-- ReactiveUI._add_to_history: append the record, then pop the oldest
entry when the history exceeds max_history.  The clock advances once per
record, modelling datetime.now(). -/
def _add_to_history (s : ReactiveUI V) (event_name : String) (data : EData V) :
    ReactiveUI V :=
  let event_record : EventRecord V :=
    { timestamp := s.clock, event := event_name, data := data }
  let h := s.event_history ++ [event_record]
  let h := if h.length > s.max_history then h.tail else h
  { s with event_history := h, clock := s.clock + 1 }

/-- Loop body of ReactiveUI.emit over the snapshotted observer list: each
callback is invoked inside try/except, an exception is caught (and
logged) rather than propagated, and the loop continues with the next
callback.  The returned list records, in invocation order, the caught
exception of each callback (none when the callback returned normally). -/
def runCallbacks (env : Nat → EData V → Except String Unit)
    (callbacks : List Nat) (data : EData V) : List (Option String) :=
  match callbacks with
  | [] => []
  | cb :: rest =>
      (match env cb data with
       | Except.ok _ => none
       | Except.error e => some e) :: runCallbacks env rest data

/-- ReactiveUI.emit: under the lock, record the event in the history and
snapshot the observer list; outside the lock, run every snapshotted
callback with each exception caught.  Returns the new bus state and the
per-callback outcome list; the function is total, so emit always returns
normally to the emitter. -/
def emit (env : Nat → EData V → Except String Unit) (s : ReactiveUI V)
    (event_name : String) (data : EData V) :
    ReactiveUI V × List (Option String) :=
  let s1 := _add_to_history s event_name data
  let observers_copy := s.observers event_name
  (s1, runCallbacks env observers_copy data)

/-- Sequence of emit calls threaded through the bus state, one after the
other. -/
def emitAll (env : Nat → EData V → Except String Unit) :
    ReactiveUI V → List (String × EData V) → ReactiveUI V
  | s, [] => s
  | s, c :: rest => emitAll env ((emit env s c.1 c.2).1) rest

/-- ReactiveUI.set_state: read the old value, store the new one, and when
emit_change holds and the old value differs from the new one emit the
per-key change event followed by the generic state_changed event.  The
second component lists the events this call emitted (name and payload),
in emission order. -/
def set_state (env : Nat → EData V → Except String Unit) (s : ReactiveUI V)
    (key : String) (value : V) (emit_change : Bool) :
    ReactiveUI V × List (String × EData V) :=
  let old_value := s.state key
  let s1 := { s with state := fun k =>
                if k = key then some value else s.state k }
  if emit_change = true ∧ ¬ (old_value = some value) then
    let payload : EData V := EData.change key old_value value
    let s2 := (emit env s1 ("state_changed_" ++ key) payload).1
    let s3 := (emit env s2 "state_changed" payload).1
    (s3, [("state_changed_" ++ key, payload), ("state_changed", payload)])
  else (s1, [])

/-- ReactiveUI.get_state: lock-protected read with a default. -/
def get_state (s : ReactiveUI V) (key : String) (default : Option V) :
    Option V :=
  match s.state key with
  | some v => some v
  | none => default

/-- ReactiveUI.bind_element: store the association record, then subscribe
a freshly created lambda (callback) to the per-key change event; the
immediate invocation of update_callback with the current value is an
external effect and leaves the bus state unchanged. -/
def bind_element (s : ReactiveUI V) (element_id state_key : String)
    (callback : Nat) : ReactiveUI V :=
  let s := { s with ui_elements := fun e =>
              if e = element_id then some (state_key, callback)
              else s.ui_elements e }
  subscribe s ("state_changed_" ++ state_key) callback

/-- ReactiveUI.unbind_element: when the element is bound, delete the
association record; the state_key read by the source is unused and the
underlying subscription is left registered. -/
def unbind_element (s : ReactiveUI V) (element_id : String) : ReactiveUI V :=
  match s.ui_elements element_id with
  | some _ =>
      { s with ui_elements := fun e =>
          if e = element_id then none else s.ui_elements e }
  | none => s

/-- ReactiveUI.get_event_history: copy the history, filter by name only
when event_name is truthy (not None and not the empty string), sort by
timestamp newest first (Python's stable sort with reverse), and truncate
only when limit is truthy (not None and not zero). -/
def get_event_history (s : ReactiveUI V) (event_name : Option String)
    (limit : Option Nat) : List (EventRecord V) :=
  let history := s.event_history
  let history :=
    match event_name with
    | none => history
    | some n => if n = "" then history
                else history.filter (fun e => e.event = n)
  let history := history.insertionSort (fun a b => b.timestamp ≤ a.timestamp)
  match limit with
  | none => history
  | some l => if l = 0 then history else history.take l

/-- ReactiveUI.get_observers_count restricted to one event name: the
length of that event's observer list. -/
def get_observers_count (s : ReactiveUI V) (event_name : String) : Nat :=
  (s.observers event_name).length

end ReactiveUI

/-- C10: get_event_history treats falsy arguments as no constraint: an
empty-string event_name filters nothing (it behaves as passing None),
limit zero truncates nothing (it behaves as passing None), and with no
constraints every history entry is returned. -/
theorem c10_get_event_history_falsy {V : Type} [DecidableEq V]
    (s : ReactiveUI V) (en : Option String) (lim : Option Nat) :
    ReactiveUI.get_event_history s (some "") lim
      = ReactiveUI.get_event_history s none lim
    ∧ ReactiveUI.get_event_history s en (some 0)
      = ReactiveUI.get_event_history s en none
    ∧ (ReactiveUI.get_event_history s none none).length
      = s.event_history.length := by
  refine ⟨rfl, ?_, ?_⟩
  · unfold ReactiveUI.get_event_history
    cases en with
    | none => simp
    | some n => by_cases hn : n = "" <;> simp [hn]
  · unfold ReactiveUI.get_event_history
    exact (List.perm_insertionSort
      (fun a b => b.timestamp ≤ a.timestamp) s.event_history).length_eq

/-- Helper: the event trace of a set_state call with emit_change true is
empty exactly when the stored value already equals the new value. -/
theorem set_state_trace {V : Type} [DecidableEq V]
    (env : Nat → EData V → Except String Unit) (s : ReactiveUI V)
    (k : String) (v : V) :
    (ReactiveUI.set_state env s k v true).2
      = if s.state k = some v then []
        else [("state_changed_" ++ k, EData.change k (s.state k) v),
              ("state_changed", EData.change k (s.state k) v)] := by
  by_cases h : s.state k = some v <;>
    simp [ReactiveUI.set_state, h]

/-- Helper: after set_state the stored value under the written key is the
written value, whatever branch was taken. -/
theorem set_state_state_self {V : Type} [DecidableEq V]
    (env : Nat → EData V → Except String Unit) (s : ReactiveUI V)
    (k : String) (v : V) (b : Bool) :
    ((ReactiveUI.set_state env s k v b).1).state k = some v := by
  by_cases h : b = true ∧ ¬ (s.state k = some v) <;>
    simp [ReactiveUI.set_state, ReactiveUI.emit, ReactiveUI._add_to_history, h]

/-- Helper: the generic change event name differs from every per-key
change event name, by length. -/
theorem state_changed_name_ne (k : String) :
    ("state_changed" : String) ≠ "state_changed_" ++ k := by
  intro h
  have hlen := congrArg String.length h
  rw [String.length_append] at hlen
  have h13 : ("state_changed" : String).length = 13 := rfl
  have h14 : ("state_changed_" : String).length = 14 := rfl
  omega

/-- C7: set_state with emit_change true emits the per-key change event
and the generic change event, both carrying the key, old value and new
value, exactly when the new value differs from the stored one; an
equal-value write emits nothing, so writing the same value twice emits
the per-key event at most once. -/
theorem c7_set_state_change_detection {V : Type} [DecidableEq V]
    (env : Nat → EData V → Except String Unit) (s : ReactiveUI V)
    (k : String) (v : V) :
    ((ReactiveUI.set_state env s k v true).2
       = if s.state k = some v then []
         else [("state_changed_" ++ k, EData.change k (s.state k) v),
               ("state_changed", EData.change k (s.state k) v)])
    ∧ (ReactiveUI.set_state env
        ((ReactiveUI.set_state env s k v true).1) k v true).2 = []
    ∧ (((ReactiveUI.set_state env s k v true).2
          ++ (ReactiveUI.set_state env
               ((ReactiveUI.set_state env s k v true).1) k v true).2).filter
          (fun p => p.1 = "state_changed_" ++ k)).length ≤ 1 := by
  have h2 : (ReactiveUI.set_state env
      ((ReactiveUI.set_state env s k v true).1) k v true).2 = [] := by
    rw [set_state_trace]
    simp [set_state_state_self]
  refine ⟨set_state_trace env s k v, h2, ?_⟩
  rw [set_state_trace, h2]
  by_cases h : s.state k = some v <;>
    simp [h, state_changed_name_ne k]

/-- C9: unbind_element after bind_element removes only the association
record: the observer table (hence the subscription that bind_element
registered, which leaves the per-key observer count one higher than
before the bind), the state map and the event history are untouched, and
bindings of other elements are untouched. -/
theorem c9_unbind_element_keeps_subscription {V : Type} [DecidableEq V]
    (s : ReactiveUI V) (eid k : String) (cb : Nat)
    (hfresh : cb ∉ s.observers ("state_changed_" ++ k)) :
    (ReactiveUI.unbind_element (ReactiveUI.bind_element s eid k cb) eid).observers
      = (ReactiveUI.bind_element s eid k cb).observers
    ∧ (ReactiveUI.unbind_element (ReactiveUI.bind_element s eid k cb) eid).state
      = (ReactiveUI.bind_element s eid k cb).state
    ∧ (ReactiveUI.unbind_element (ReactiveUI.bind_element s eid k cb) eid).event_history
      = (ReactiveUI.bind_element s eid k cb).event_history
    ∧ (ReactiveUI.unbind_element (ReactiveUI.bind_element s eid k cb) eid).ui_elements eid
      = none
    ∧ (∀ e, e ≠ eid →
        (ReactiveUI.unbind_element (ReactiveUI.bind_element s eid k cb) eid).ui_elements e
          = (ReactiveUI.bind_element s eid k cb).ui_elements e)
    ∧ ReactiveUI.get_observers_count
        (ReactiveUI.unbind_element (ReactiveUI.bind_element s eid k cb) eid)
        ("state_changed_" ++ k)
      = ReactiveUI.get_observers_count s ("state_changed_" ++ k) + 1 := by
  refine ⟨?_, ?_, ?_, ?_, ?_, ?_⟩
  · simp [ReactiveUI.bind_element, ReactiveUI.subscribe,
      ReactiveUI.unbind_element, hfresh]
  · simp [ReactiveUI.bind_element, ReactiveUI.subscribe,
      ReactiveUI.unbind_element, hfresh]
  · simp [ReactiveUI.bind_element, ReactiveUI.subscribe,
      ReactiveUI.unbind_element, hfresh]
  · simp [ReactiveUI.bind_element, ReactiveUI.subscribe,
      ReactiveUI.unbind_element, hfresh]
  · intro e he
    simp [ReactiveUI.bind_element, ReactiveUI.subscribe,
      ReactiveUI.unbind_element, hfresh, he]
  · simp [ReactiveUI.bind_element, ReactiveUI.subscribe,
      ReactiveUI.unbind_element, ReactiveUI.get_observers_count, hfresh]

/-- Witness for C9 at a concrete bus: a fresh callback 7 bound to element
el1 on key count of the initial bus, then unbound; the per-key observer
count stays one higher than on the initial bus. -/
theorem c9_witness :
    (7 ∉ (ReactiveUI.initState (V := Bool)).observers ("state_changed_" ++ "count"))
    ∧ ReactiveUI.get_observers_count
        (ReactiveUI.unbind_element
          (ReactiveUI.bind_element (ReactiveUI.initState (V := Bool)) "el1" "count" 7)
          "el1")
        ("state_changed_" ++ "count")
      = ReactiveUI.get_observers_count (ReactiveUI.initState (V := Bool))
          ("state_changed_" ++ "count") + 1 :=
  ⟨by decide,
   (c9_unbind_element_keeps_subscription (ReactiveUI.initState (V := Bool))
      "el1" "count" 7 (by decide)).2.2.2.2.2⟩

/-- Helper: delivery distributes over concatenation of the snapshot. -/
theorem runCallbacks_append {V : Type} [DecidableEq V]
    (env : Nat → EData V → Except String Unit) (l1 l2 : List Nat)
    (d : EData V) :
    ReactiveUI.runCallbacks env (l1 ++ l2) d
      = ReactiveUI.runCallbacks env l1 d ++ ReactiveUI.runCallbacks env l2 d := by
  induction l1 with
  | nil => rfl
  | cons a t ih => simp [ReactiveUI.runCallbacks, ih]

/-- Helper: every snapshotted callback produces exactly one outcome. -/
theorem runCallbacks_length {V : Type} [DecidableEq V]
    (env : Nat → EData V → Except String Unit) (l : List Nat) (d : EData V) :
    (ReactiveUI.runCallbacks env l d).length = l.length := by
  induction l with
  | nil => rfl
  | cons a t ih => simp [ReactiveUI.runCallbacks, ih]

/-- C6: when one snapshotted callback raises during emit, the exception
is caught at the bus boundary: the outcome list shows the preceding
callbacks delivered in order, the caught error, and the remaining
callbacks delivered in order, one outcome per registered callback; emit
itself returns this pair normally, it has no failure result. -/
theorem c6_emit_subscriber_failure_isolation {V : Type} [DecidableEq V]
    (env : Nat → EData V → Except String Unit) (s : ReactiveUI V)
    (ev : String) (d : EData V) (pre post : List Nat) (bad : Nat) (e : String)
    (hobs : s.observers ev = pre ++ bad :: post)
    (herr : env bad d = Except.error e) :
    (ReactiveUI.emit env s ev d).2
      = ReactiveUI.runCallbacks env pre d
          ++ some e :: ReactiveUI.runCallbacks env post d
    ∧ (ReactiveUI.emit env s ev d).2.length = (s.observers ev).length := by
  constructor
  · simp [ReactiveUI.emit, hobs, runCallbacks_append,
      ReactiveUI.runCallbacks, herr]
  · simp [ReactiveUI.emit, runCallbacks_length]

/-- Bus with three callbacks registered on the refresh event. -/
def busThree : ReactiveUI Bool :=
  ReactiveUI.subscribe
    (ReactiveUI.subscribe
      (ReactiveUI.subscribe ReactiveUI.initState "refresh" 0) "refresh" 1)
    "refresh" 2

/-- Callback environment in which callback 1 raises and the others
return normally. -/
def envBoom : Nat → EData Bool → Except String Unit :=
  fun n _ => if n = 1 then Except.error "boom" else Except.ok ()

/-- Witness for C6: on a bus with callbacks 0, 1, 2 where callback 1
raises, emit still delivers to callbacks 0 and 2 and returns the three
outcomes in order. -/
theorem c6_witness :
    busThree.observers "refresh" = [0] ++ 1 :: [2]
    ∧ envBoom 1 EData.pynone = Except.error "boom"
    ∧ (ReactiveUI.emit envBoom busThree "refresh" EData.pynone).2
        = ReactiveUI.runCallbacks envBoom [0] EData.pynone
            ++ some "boom" :: ReactiveUI.runCallbacks envBoom [2] EData.pynone :=
  ⟨by decide, rfl,
   (c6_emit_subscriber_failure_isolation envBoom busThree "refresh"
      EData.pynone [0] [2] 1 "boom" (by decide) rfl).1⟩

/-- Records that a sequence of emit calls starting at clock value i
appends to the history, in emission order, before any eviction. -/
def recordsFrom {V : Type} (i : Nat) :
    List (String × EData V) → List (EventRecord V)
  | [] => []
  | c :: rest =>
      { timestamp := i, event := c.1, data := c.2 } :: recordsFrom (i + 1) rest

/-- Helper: one record per emission. -/
theorem recordsFrom_length {V : Type} (L : List (String × EData V)) :
    ∀ i, (recordsFrom i L).length = L.length := by
  induction L with
  | nil => intro i; rfl
  | cons c rest ih => intro i; simp [recordsFrom, ih]

/-- Helper: appending one emission appends one record, stamped with the
clock value reached after the earlier emissions. -/
theorem recordsFrom_append {V : Type} (L : List (String × EData V))
    (x : String × EData V) :
    ∀ i, recordsFrom i (L ++ [x])
      = recordsFrom i L
          ++ [({ timestamp := i + L.length, event := x.1,
                 data := x.2 } : EventRecord V)] := by
  induction L with
  | nil => intro i; simp [recordsFrom]
  | cons c rest ih =>
      intro i
      simp only [List.cons_append, recordsFrom, List.length_cons, List.append_eq]
      rw [ih (i + 1), show i + 1 + rest.length = i + (rest.length + 1) from by omega]

/-- Helper: dropping the first n records of a run starting at clock i
leaves the records of the remaining emissions starting at clock i + n. -/
theorem recordsFrom_drop {V : Type} :
    ∀ (n : Nat) (L : List (String × EData V)) (i : Nat),
      (recordsFrom i L).drop n = recordsFrom (i + n) (L.drop n) := by
  intro n
  induction n with
  | zero => intro L i; simp
  | succ m ih =>
      intro L i
      cases L with
      | nil => simp [recordsFrom]
      | cons c rest =>
          simp only [recordsFrom, List.drop_succ_cons, ih rest (i + 1)]
          congr 1
          omega

/-- Helper: every record of a run starting at clock i is stamped at
least i. -/
theorem recordsFrom_mem_ts {V : Type} (L : List (String × EData V)) :
    ∀ i r, r ∈ recordsFrom (V := V) i L → i ≤ r.timestamp := by
  induction L with
  | nil => intro i r hr; simp [recordsFrom] at hr
  | cons c rest ih =>
      intro i r hr
      simp only [recordsFrom, List.mem_cons] at hr
      rcases hr with hr | hr
      · subst hr; exact Nat.le_refl i
      · exact Nat.le_of_succ_le (ih (i + 1) r hr)

/-- Helper: the history produced by one emit, written out. -/
theorem emit_history {V : Type} [DecidableEq V]
    (env : Nat → EData V → Except String Unit) (s : ReactiveUI V)
    (n : String) (d : EData V) :
    (ReactiveUI.emit env s n d).1.event_history
      = (if (s.event_history
              ++ [({ timestamp := s.clock, event := n,
                     data := d } : EventRecord V)]).length > s.max_history
         then (s.event_history
                ++ [({ timestamp := s.clock, event := n,
                       data := d } : EventRecord V)]).tail
         else s.event_history
                ++ [({ timestamp := s.clock, event := n,
                       data := d } : EventRecord V)]) := rfl

/-- Helper: emit advances the clock by one. -/
theorem emit_clock {V : Type} [DecidableEq V]
    (env : Nat → EData V → Except String Unit) (s : ReactiveUI V)
    (n : String) (d : EData V) :
    (ReactiveUI.emit env s n d).1.clock = s.clock + 1 := rfl

/-- Helper: emit keeps the history capacity. -/
theorem emit_max_history {V : Type} [DecidableEq V]
    (env : Nat → EData V → Except String Unit) (s : ReactiveUI V)
    (n : String) (d : EData V) :
    (ReactiveUI.emit env s n d).1.max_history = s.max_history := rfl

/-- Helper: a run of emit calls advances the clock by one per call. -/
theorem emitAll_clock {V : Type} [DecidableEq V]
    (env : Nat → EData V → Except String Unit)
    (L : List (String × EData V)) :
    ∀ s : ReactiveUI V, (ReactiveUI.emitAll env s L).clock
      = s.clock + L.length := by
  induction L with
  | nil => intro s; simp [ReactiveUI.emitAll]
  | cons c rest ih =>
      intro s
      simp only [ReactiveUI.emitAll, List.length_cons,
        ih ((ReactiveUI.emit env s c.1 c.2).1), emit_clock]
      omega

/-- Helper: a run of emit calls keeps the history capacity. -/
theorem emitAll_max_history {V : Type} [DecidableEq V]
    (env : Nat → EData V → Except String Unit)
    (L : List (String × EData V)) :
    ∀ s : ReactiveUI V, (ReactiveUI.emitAll env s L).max_history
      = s.max_history := by
  induction L with
  | nil => intro s; simp [ReactiveUI.emitAll]
  | cons c rest ih =>
      intro s
      simp only [ReactiveUI.emitAll,
        ih ((ReactiveUI.emit env s c.1 c.2).1), emit_max_history]

/-- Helper: splitting off the last emission of a run. -/
theorem emitAll_append {V : Type} [DecidableEq V]
    (env : Nat → EData V → Except String Unit)
    (L : List (String × EData V)) (x : String × EData V) :
    ∀ s : ReactiveUI V, ReactiveUI.emitAll env s (L ++ [x])
      = (ReactiveUI.emit env (ReactiveUI.emitAll env s L) x.1 x.2).1 := by
  induction L with
  | nil => intro s; simp [ReactiveUI.emitAll]
  | cons c rest ih =>
      intro s
      simp only [List.cons_append, ReactiveUI.emitAll, List.append_eq,
        ih ((ReactiveUI.emit env s c.1 c.2).1)]

/-- Helper: after any run of emissions from the fresh bus, the history
holds exactly the records of the emissions, oldest evicted beyond the
last hundred. -/
theorem emitAll_history {V : Type} [DecidableEq V]
    (env : Nat → EData V → Except String Unit)
    (L : List (String × EData V)) :
    (ReactiveUI.emitAll env ReactiveUI.initState L).event_history
      = (recordsFrom 0 L).drop (L.length - 100) := by
  induction L using List.reverseRecOn with
  | nil => simp [ReactiveUI.emitAll, ReactiveUI.initState, recordsFrom]
  | append_singleton M x ih =>
      have hclock : (ReactiveUI.emitAll env ReactiveUI.initState
          (V := V) M).clock = M.length := by
        rw [emitAll_clock]
        simp [ReactiveUI.initState]
      have hmax : (ReactiveUI.emitAll env ReactiveUI.initState
          (V := V) M).max_history = 100 := by
        rw [emitAll_max_history]
        rfl
      rw [emitAll_append, emit_history, hclock, hmax, ih,
        recordsFrom_append M x 0]
      simp only [Nat.zero_add]
      have hRlen : (recordsFrom (V := V) 0 M).length = M.length :=
        recordsFrom_length M 0
      have hdl : M.length - 100 ≤ (recordsFrom (V := V) 0 M).length := by
        omega
      rw [← List.drop_append_of_le_length hdl]
      have hlen2 : (((recordsFrom (V := V) 0 M)
          ++ [({ timestamp := M.length, event := x.1,
                 data := x.2 } : EventRecord V)]).drop (M.length - 100)).length
          = M.length + 1 - (M.length - 100) := by
        rw [List.length_drop, List.length_append, hRlen, List.length_singleton]
      by_cases hb : M.length < 100
      · have hcond : ¬ (((recordsFrom (V := V) 0 M)
            ++ [({ timestamp := M.length, event := x.1,
                   data := x.2 } : EventRecord V)]).drop
                (M.length - 100)).length > 100 := by
          omega
        rw [if_neg hcond]
        congr 1
        simp only [List.length_append, List.length_singleton]
        omega
      · have hcond : (((recordsFrom (V := V) 0 M)
            ++ [({ timestamp := M.length, event := x.1,
                   data := x.2 } : EventRecord V)]).drop
                (M.length - 100)).length > 100 := by
          omega
        rw [if_pos hcond, List.tail_drop]
        congr 1
        simp only [List.length_append, List.length_singleton]
        omega

/-- Helper: the unfiltered, untruncated history query returns a
permutation of the history buffer, so membership agrees. -/
theorem mem_get_event_history_iff {V : Type} [DecidableEq V]
    (s : ReactiveUI V) (r : EventRecord V) :
    r ∈ ReactiveUI.get_event_history s none none ↔ r ∈ s.event_history := by
  unfold ReactiveUI.get_event_history
  exact (List.perm_insertionSort
    (fun a b => b.timestamp ≤ a.timestamp) s.event_history).mem_iff

/-- C5: each emit appends exactly one history entry (with zero
subscribers as well, since the append happens before delivery and emit
is total), the history length never exceeds 100, and once at least 101
emissions have happened from a fresh bus the record of the first
emission, stamped 0, is absent from get_event_history(). -/
theorem c5_history_capacity {V : Type} [DecidableEq V]
    (env : Nat → EData V → Except String Unit)
    (L : List (String × EData V)) :
    (ReactiveUI.emitAll env ReactiveUI.initState L).event_history
      = (recordsFrom 0 L).drop (L.length - 100)
    ∧ (ReactiveUI.emitAll env ReactiveUI.initState L).event_history.length
      = min L.length 100
    ∧ (ReactiveUI.emitAll env ReactiveUI.initState L).event_history.length
      ≤ 100
    ∧ (∀ (s : ReactiveUI V) (n : String) (d : EData V),
        s.max_history = 100 → s.event_history.length ≤ 100 →
          (ReactiveUI.emit env s n d).1.event_history.length
            = min (s.event_history.length + 1) 100)
    ∧ (101 ≤ L.length →
        ∀ r ∈ ReactiveUI.get_event_history
            (ReactiveUI.emitAll env ReactiveUI.initState L) none none,
          r.timestamp ≠ 0)
    ∧ (∀ n d, L.head? = some (n, d) → 101 ≤ L.length →
        ({ timestamp := 0, event := n, data := d } : EventRecord V)
          ∉ ReactiveUI.get_event_history
              (ReactiveUI.emitAll env ReactiveUI.initState L) none none) := by
  have hhist := emitAll_history env L
  have hlen : (ReactiveUI.emitAll env ReactiveUI.initState
      L).event_history.length = min L.length 100 := by
    rw [hhist, List.length_drop, recordsFrom_length]
    omega
  have hmem : 101 ≤ L.length →
      ∀ r ∈ ReactiveUI.get_event_history
          (ReactiveUI.emitAll env ReactiveUI.initState L) none none,
        r.timestamp ≠ 0 := by
    intro hL r hr
    rw [mem_get_event_history_iff, hhist, recordsFrom_drop] at hr
    have := recordsFrom_mem_ts (L.drop (L.length - 100))
      (0 + (L.length - 100)) r hr
    omega
  refine ⟨hhist, hlen, by omega, ?_, hmem, ?_⟩
  · intro s n d hmax hle
    rw [emit_history, hmax]
    by_cases hc : (s.event_history
        ++ [({ timestamp := s.clock, event := n,
               data := d } : EventRecord V)]).length > 100
    · rw [if_pos hc, List.length_tail]
      rw [List.length_append, List.length_singleton] at hc ⊢
      omega
    · rw [if_neg hc]
      rw [List.length_append, List.length_singleton] at hc ⊢
      omega
  · intro n d hhead hL hin
    exact hmem hL _ hin rfl

/-- Callback environment in which every callback returns normally. -/
def envOk : Nat → EData Bool → Except String Unit := fun _ _ => Except.ok ()

/-- Witness for C5: after 101 emissions of an event with no subscribers
on a fresh bus, no record in the queried history is stamped 0, so the
first emission has been evicted. -/
theorem c5_witness :
    101 ≤ (List.replicate 101 (("e", EData.pynone) : String × EData Bool)).length
    ∧ (∀ r ∈ ReactiveUI.get_event_history
          (ReactiveUI.emitAll envOk ReactiveUI.initState
            (List.replicate 101 (("e", EData.pynone) : String × EData Bool)))
          none none,
        r.timestamp ≠ 0) :=
  ⟨by simp,
   fun r hr =>
     (c5_history_capacity envOk
        (List.replicate 101 (("e", EData.pynone) : String × EData Bool))).2.2.2.2.1
       (by simp) r hr⟩

/-- Per-user scroll budget counters of the User model
(src/ya va/models/user.py): scroll_time_today is a Python integer,
last_scroll_reset a date (modelled as a day number). -/
structure SUser where
  scroll_time_today : Int
  last_scroll_reset : Nat
deriving DecidableEq

namespace ScrollLimitService

/-- Daily scroll limit of ScrollLimitService.__init__: 1800 seconds. -/
def DAILY_SCROLL_LIMIT : Int := 1800

/-- ScrollLimitService._reset_daily_limits_if_needed: when the stored
reset date differs from today, zero the counter and stamp today; the
accompanying update_one call does not influence the counters. -/
def _reset_daily_limits_if_needed (today : Nat) (user : SUser) : SUser :=
  if user.last_scroll_reset ≠ today then
    { scroll_time_today := 0, last_scroll_reset := today }
  else user

/-- ScrollLimitService.add_scroll_time: lazy rollover, add the seconds,
clamp at the limit, persist; the returned boolean is update_one's
modified_count > 0 (db_modified), and a raised persistence error only
changes the returned boolean, never the counters already mutated. -/
def add_scroll_time (today : Nat) (db_modified : Bool) (user : SUser)
    (seconds : Int) : SUser × Bool :=
  let user := _reset_daily_limits_if_needed today user
  let user := { user with
    scroll_time_today := user.scroll_time_today + seconds }
  let user :=
    if user.scroll_time_today > DAILY_SCROLL_LIMIT then
      { user with scroll_time_today := DAILY_SCROLL_LIMIT }
    else user
  (user, db_modified)

/-- ScrollLimitService.check_scroll_limit: lazy rollover, then compare
the counter with the limit. -/
def check_scroll_limit (today : Nat) (user : SUser) : SUser × Bool :=
  let user := _reset_daily_limits_if_needed today user
  (user, decide (user.scroll_time_today < DAILY_SCROLL_LIMIT))

/-- ScrollLimitService.get_remaining_scroll_time: lazy rollover, then
the remaining seconds, floored at zero. -/
def get_remaining_scroll_time (today : Nat) (user : SUser) : SUser × Int :=
  let user := _reset_daily_limits_if_needed today user
  (user, max 0 (DAILY_SCROLL_LIMIT - user.scroll_time_today))

/-- ScrollLimitService.reset_user_scroll_time: zero the counter, stamp
today, persist; the boolean is update_one's modified_count > 0. -/
def reset_user_scroll_time (today : Nat) (db_modified : Bool)
    (_user : SUser) : SUser × Bool :=
  ({ scroll_time_today := 0, last_scroll_reset := today }, db_modified)

/-- ScrollLimitService.is_scroll_warning_needed: warn when at most 300
seconds remain and some time remains. -/
def is_scroll_warning_needed (today : Nat) (user : SUser) : SUser × Bool :=
  let r := get_remaining_scroll_time today user
  (r.1, decide (r.2 ≤ 300) && decide (r.2 > 0))

end ScrollLimitService

/-- Budget counter invariant of the spec: the accumulated seconds stay
between zero and the daily limit. -/
def SUser.Inv (u : SUser) : Prop :=
  0 ≤ u.scroll_time_today
    ∧ u.scroll_time_today ≤ ScrollLimitService.DAILY_SCROLL_LIMIT

/-- C3: for nonnegative seconds, add_scroll_time keeps the counter
between 0 and 1800, as do the rollover reset, the limit check, the
remaining-time query and the admin reset; and two consecutive additions
of 1000 seconds starting from a fresh day leave the counter at exactly
1800, not 2000. -/
theorem c3_budget_clamp_invariant (today : Nat) (db : Bool) (u : SUser)
    (seconds : Int) (hs : 0 ≤ seconds) (hu : u.Inv) :
    ((ScrollLimitService.add_scroll_time today db u seconds).1).Inv
    ∧ (ScrollLimitService._reset_daily_limits_if_needed today u).Inv
    ∧ ((ScrollLimitService.check_scroll_limit today u).1).Inv
    ∧ ((ScrollLimitService.get_remaining_scroll_time today u).1).Inv
    ∧ ((ScrollLimitService.reset_user_scroll_time today db u).1).Inv
    ∧ ((ScrollLimitService.add_scroll_time 0 true
          ((ScrollLimitService.add_scroll_time 0 true
            { scroll_time_today := 0, last_scroll_reset := 0 }
            1000).1) 1000).1).scroll_time_today = 1800 := by
  obtain ⟨hu0, hu1⟩ := hu
  have hlim : ScrollLimitService.DAILY_SCROLL_LIMIT = 1800 := rfl
  rw [hlim] at hu1
  have hrv : (ScrollLimitService._reset_daily_limits_if_needed today u).scroll_time_today = 0
      ∨ (ScrollLimitService._reset_daily_limits_if_needed today u).scroll_time_today
          = u.scroll_time_today := by
    unfold ScrollLimitService._reset_daily_limits_if_needed
    split_ifs <;> simp
  have hreset : (ScrollLimitService._reset_daily_limits_if_needed today u).Inv := by
    unfold SUser.Inv
    rw [hlim]
    rcases hrv with h | h <;> rw [h] <;> exact ⟨by omega, by omega⟩
  have haddv : ((ScrollLimitService.add_scroll_time today db u seconds).1).scroll_time_today
      = min ((ScrollLimitService._reset_daily_limits_if_needed today u).scroll_time_today
              + seconds) 1800 := by
    show ((if (ScrollLimitService._reset_daily_limits_if_needed today u).scroll_time_today
              + seconds > ScrollLimitService.DAILY_SCROLL_LIMIT
           then ({ scroll_time_today := ScrollLimitService.DAILY_SCROLL_LIMIT,
                   last_scroll_reset :=
                     (ScrollLimitService._reset_daily_limits_if_needed today u).last_scroll_reset } : SUser)
           else { scroll_time_today :=
                    (ScrollLimitService._reset_daily_limits_if_needed today u).scroll_time_today
                      + seconds,
                  last_scroll_reset :=
                    (ScrollLimitService._reset_daily_limits_if_needed today u).last_scroll_reset }),
          db).1.scroll_time_today
        = min ((ScrollLimitService._reset_daily_limits_if_needed today u).scroll_time_today
                + seconds) 1800
    rw [hlim]
    split_ifs with h <;> simp <;> omega
  refine ⟨?_, hreset, hreset, hreset, ?_, ?_⟩
  · obtain ⟨h0, h1⟩ := hreset
    rw [hlim] at h1
    unfold SUser.Inv
    rw [hlim, haddv]
    exact ⟨by omega, by omega⟩
  · unfold SUser.Inv ScrollLimitService.reset_user_scroll_time
    rw [hlim]
    simp
  · decide

/-- Witness for C3: a user whose counter is 500 on the current day, with
1000 seconds added, stays inside the invariant. -/
theorem c3_witness :
    (0 : Int) ≤ 1000
    ∧ SUser.Inv { scroll_time_today := 500, last_scroll_reset := 3 }
    ∧ ((ScrollLimitService.add_scroll_time 3 true
        { scroll_time_today := 500, last_scroll_reset := 3 } 1000).1).Inv :=
  ⟨by decide, ⟨by decide, by decide⟩,
   (c3_budget_clamp_invariant 3 true
      { scroll_time_today := 500, last_scroll_reset := 3 } 1000
      (by decide) ⟨by decide, by decide⟩).1⟩

/-- C4 counterexample: at accumulated_seconds = 1501 on the current day
(299 seconds remaining) the source returns a warning, where the claim
asserts the warning is off. -/
theorem c4_counterexample_warning_at_1501 :
    (ScrollLimitService.is_scroll_warning_needed 0
      { scroll_time_today := 1501, last_scroll_reset := 0 }).2 = true := by
  decide

/-- C4 amended: after the lazy rollover the warning is on exactly when
the remaining time 1800 - accumulated_seconds is positive and at most
300; so it is off at 1800 accumulated seconds, on at 1500, on at 1501
(not off, as claimed), and off at 1499. -/
theorem c4_warning_threshold (today : Nat) (acc : Int) :
    ((ScrollLimitService.is_scroll_warning_needed today
        { scroll_time_today := acc, last_scroll_reset := today }).2 = true
      ↔ (0 < 1800 - acc ∧ 1800 - acc ≤ 300))
    ∧ (ScrollLimitService.is_scroll_warning_needed today
        { scroll_time_today := 1800, last_scroll_reset := today }).2 = false
    ∧ (ScrollLimitService.is_scroll_warning_needed today
        { scroll_time_today := 1500, last_scroll_reset := today }).2 = true
    ∧ (ScrollLimitService.is_scroll_warning_needed today
        { scroll_time_today := 1501, last_scroll_reset := today }).2 = true
    ∧ (ScrollLimitService.is_scroll_warning_needed today
        { scroll_time_today := 1499, last_scroll_reset := today }).2 = false := by
  have hmain : ∀ a : Int,
      ((ScrollLimitService.is_scroll_warning_needed today
          { scroll_time_today := a, last_scroll_reset := today }).2 = true
        ↔ (0 < 1800 - a ∧ 1800 - a ≤ 300)) := by
    intro a
    unfold ScrollLimitService.is_scroll_warning_needed
      ScrollLimitService.get_remaining_scroll_time
      ScrollLimitService._reset_daily_limits_if_needed
      ScrollLimitService.DAILY_SCROLL_LIMIT
    simp only [ne_eq, not_true_eq_false, if_false, Bool.and_eq_true,
      decide_eq_true_eq]
    constructor
    · rintro ⟨h1, h2⟩
      constructor <;> omega
    · rintro ⟨h1, h2⟩
      constructor <;> omega
  refine ⟨hmain acc, ?_, ?_, ?_, ?_⟩
  · rw [Bool.eq_false_iff]
    intro h
    have := (hmain 1800).1 h
    omega
  · exact (hmain 1500).2 (by omega)
  · exact (hmain 1501).2 (by omega)
  · rw [Bool.eq_false_iff]
    intro h
    have := (hmain 1499).1 h
    omega

/-- Per-user post quota counters of the User model
(src/ya va/models/user.py): daily_posts and the date of the last post
(absent when the stored field was null). -/
structure PUser where
  user_id : String
  username : String
  daily_posts : Nat
  last_post_date : Option Nat
deriving DecidableEq

/-- Python str.strip() with no arguments: remove leading and trailing
whitespace. -/
def pyStrip (s : String) : String :=
  String.mk (((s.data.dropWhile Char.isWhitespace).reverse.dropWhile
    Char.isWhitespace).reverse)

namespace PostService

/-- PostService.create_post
(src/Liberate_app/services/post_service.py, lines 28-82): inside one
try/except returning False on any raise, the call checks the daily
limit first (raising when daily_posts is already 3 or more), sanitizes
the content (the sanitizer is the external collaborator sanitize_input,
passed in as a function), rejects blank content, inserts the post
(insert_ok is false when the store raises here), only then applies the
date rollover to the counter (restart at 1 on a new day, else
increment), updates the user document (update_ok is false when the
store raises here), emits user_updated (emit never raises) and returns
True.  The second component is the user object with the mutations the
call applied before returning. -/
def create_post (sanitize_input : String → String) (today : Nat)
    (insert_ok update_ok : Bool) (user : PUser)
    (content purpose source : String) : Bool × PUser :=
  if user.daily_posts ≥ 3 then (false, user)
  else
    let clean_content := sanitize_input content
    let _clean_purpose := if purpose ≠ "" then sanitize_input purpose else ""
    let _clean_source := if source ≠ "" then sanitize_input source else ""
    if pyStrip clean_content = "" then (false, user)
    else if insert_ok = false then (false, user)
    else
      let user :=
        if user.last_post_date ≠ some today then
          { user with daily_posts := 1, last_post_date := some today }
        else { user with daily_posts := user.daily_posts + 1 }
      if update_ok = false then (false, user)
      else (true, user)

end PostService

/-- C1: evaluation at the failing input.  A user at the limit
(daily_posts = 3) whose last_post_date is day 0, posting on day 1 with
valid content and a healthy store: the claim requires the lazy rollover
to reset the counter first and the post to succeed, but create_post
checks the limit before any rollover, so it fails and leaves the
counter and date untouched. -/
theorem c1_no_rollover_reset_at_limit :
    PostService.create_post id 1 true true
      { user_id := "u1", username := "alice", daily_posts := 3,
        last_post_date := some 0 } "hola" "" ""
      = (false,
         { user_id := "u1", username := "alice", daily_posts := 3,
           last_post_date := some 0 }) := by
  decide

/-- C2 counterexample: the quota failure (at the limit, same day, store
healthy) and the persistence failure (under the limit, insert raises)
both come back as the same boolean False, so the caller cannot
distinguish a QuotaExceeded condition from a transient store failure,
contrary to the claim. -/
theorem c2_counterexample_same_false_result :
    PostService.create_post id 5 true true
      { user_id := "u1", username := "alice", daily_posts := 3,
        last_post_date := some 5 } "hola" "" ""
      = (false,
         { user_id := "u1", username := "alice", daily_posts := 3,
           last_post_date := some 5 })
    ∧ PostService.create_post id 5 false true
      { user_id := "u2", username := "bob", daily_posts := 0,
        last_post_date := some 5 } "hola" "" ""
      = (false,
         { user_id := "u2", username := "bob", daily_posts := 0,
           last_post_date := some 5 })
    ∧ (PostService.create_post id 5 true true
        { user_id := "u1", username := "alice", daily_posts := 3,
          last_post_date := some 5 } "hola" "" "").1
      = (PostService.create_post id 5 false true
          { user_id := "u2", username := "bob", daily_posts := 0,
            last_post_date := some 5 } "hola" "" "").1 := by
  refine ⟨by decide, by decide, by decide⟩

/-- C2 amended: at the limit without a rollover create_post does fail,
but the failure is the same boolean False that a persistence failure
produces (the internal ValueError is caught by the blanket except), so
the two causes are not distinct result variants. -/
theorem c2_quota_and_persistence_collapse
    (san : String → String) (today : Nat) (io uo : Bool) (u : PUser)
    (content purpose source : String) (hl : 3 ≤ u.daily_posts) :
    (PostService.create_post san today io uo u content purpose source).1
      = false
    ∧ ∀ (u2 : PUser) (c2 p2 s2 : String),
        (PostService.create_post san today false uo u2 c2 p2 s2).1
          = false := by
  constructor
  · unfold PostService.create_post
    rw [if_pos hl]
  · intro u2 c2 p2 s2
    unfold PostService.create_post
    split_ifs <;> simp_all

/-- Witness for C2 amended: a user with three posts today fails, and so
does an under-limit user whose insert raises. -/
theorem c2_witness :
    3 ≤ (3 : Nat)
    ∧ (PostService.create_post id 7 true true
        { user_id := "u", username := "a", daily_posts := 3,
          last_post_date := some 7 } "hi" "" "").1 = false :=
  ⟨by decide,
   (c2_quota_and_persistence_collapse id 7 true true
      { user_id := "u", username := "a", daily_posts := 3,
        last_post_date := some 7 } "hi" "" "" (by decide)).1⟩

/-- One call to the callable returned by
ReactiveUI.create_debounced_emitter: the wall-clock time at which
debounced_emit ran and the data it carried.  Wall-clock instants are
modelled as rationals. -/
structure DebCall (α : Type) where
  time : ℚ
  data : α
deriving DecidableEq

/-- Value of the shared last_call_time cell when read at instant t
during a burst whose calls are listed in time order: the time recorded
by the latest call at or before t (0, the initial cell value, before
any call). -/
def last_call_time_at {α : Type} (calls : List (DebCall α)) (t : ℚ) : ℚ :=
  (((calls.filter (fun c => c.time ≤ t)).map DebCall.time).getLast?).getD 0

/-- Body of emit_if_latest for the timer started by call c: the timer
fires at c.time + delay and emits c.data only when the time elapsed
since the last recorded call is at least delay - 0.01. -/
def fire_result {α : Type} (delay : ℚ) (calls : List (DebCall α))
    (c : DebCall α) : Option α :=
  if c.time + delay - last_call_time_at calls (c.time + delay) ≥ delay - 1/100
  then some c.data
  else none

/-- Timeline semantics of one burst through the callable returned by
create_debounced_emitter, calls listed in time order: call i records
its time, cancels the pending timer, and starts a timer due at its time
plus delay, so the timer of call i is cancelled exactly when call i + 1
arrives strictly before that timer is due; each surviving timer runs
emit_if_latest.  The result collects the data the bursts emits
downstream, in timer order. -/
def debounce_emissions {α : Type} (delay : ℚ) (calls : List (DebCall α)) :
    List α :=
  (List.range calls.length).filterMap (fun i =>
    match calls[i]?, calls[i+1]? with
    | some c, some next =>
        if next.time < c.time + delay then none
        else fire_result delay calls c
    | some c, none => fire_result delay calls c
    | none, _ => none)

/-- Helper: in a time-ordered call list every call time is at most the
last call time. -/
theorem time_le_getLast {α : Type} :
    ∀ (calls : List (DebCall α)) (hne : calls ≠ [])
      (_hpair : calls.Pairwise (fun a b => a.time ≤ b.time))
      (c : DebCall α), c ∈ calls → c.time ≤ (calls.getLast hne).time
  | [], hne, _, _, _ => absurd rfl hne
  | [a], _, _, c, hc => by
      simp only [List.mem_singleton] at hc
      subst hc
      simp [List.getLast]
  | a :: b :: t, hne, hpair, c, hc => by
      rw [List.getLast_cons (by simp : (b :: t) ≠ [])]
      rcases List.mem_cons.mp hc with rfl | hc2
      · exact le_trans
          ((List.pairwise_cons.mp hpair).1 _ (List.getLast_mem (by simp)))
          (le_refl _)
      · exact time_le_getLast (b :: t) (by simp)
          (List.pairwise_cons.mp hpair).2 c hc2

/-- Helper: in a time-ordered call list the first call time is at most
every call time. -/
theorem head_time_le {α : Type} (calls : List (DebCall α)) (hne : calls ≠ [])
    (hpair : calls.Pairwise (fun a b => a.time ≤ b.time)) :
    ∀ c ∈ calls, (calls.head hne).time ≤ c.time := by
  cases calls with
  | nil => exact absurd rfl hne
  | cons a t =>
      intro c hc
      rw [List.head_cons]
      rcases List.mem_cons.mp hc with rfl | hc2
      · exact le_refl _
      · exact (List.pairwise_cons.mp hpair).1 c hc2

/-- C8: a nonempty burst of calls in time order, all inside one delay
window, produces exactly one downstream emission, carrying the payload
of the last call: every timer except the last is cancelled by the next
call, and the last timer's guard passes. -/
theorem c8_debounce_burst_single_emission {α : Type} (delay : ℚ)
    (calls : List (DebCall α)) (hne : calls ≠ [])
    (hchain : calls.Chain' (fun a b => a.time ≤ b.time))
    (hwin : (calls.getLast hne).time < (calls.head hne).time + delay) :
    debounce_emissions delay calls = [(calls.getLast hne).data] := by
  haveI : IsTrans (DebCall α) (fun a b => a.time ≤ b.time) :=
    ⟨fun a b c hab hbc => le_trans hab hbc⟩
  have hpair : calls.Pairwise (fun a b => a.time ≤ b.time) :=
    List.chain'_iff_pairwise.mp hchain
  have hA := time_le_getLast calls hne hpair
  have hB := head_time_le calls hne hpair
  have hd0 : 0 < delay := by
    have h1 := hB _ (List.getLast_mem hne)
    linarith
  have hfeq : calls.filter
      (fun c => c.time ≤ (calls.getLast hne).time + delay) = calls := by
    apply List.filter_eq_self.mpr
    intro c hc
    simp only [decide_eq_true_eq]
    have := hA c hc
    linarith
  have hlct : last_call_time_at calls ((calls.getLast hne).time + delay)
      = (calls.getLast hne).time := by
    unfold last_call_time_at
    rw [hfeq, List.getLast?_map, List.getLast?_eq_getLast calls hne]
    rfl
  have hfire : fire_result delay calls (calls.getLast hne)
      = some (calls.getLast hne).data := by
    unfold fire_result
    rw [hlct,
      if_pos (by linarith [(by norm_num : (0 : ℚ) ≤ 1 / 100)])]
  obtain ⟨m, hm⟩ : ∃ m, calls.length = m + 1 := by
    cases calls with
    | nil => exact absurd rfl hne
    | cons a t => exact ⟨t.length, rfl⟩
  have hnone : ∀ i ∈ List.range m,
      (match calls[i]?, calls[i + 1]? with
       | some c, some next =>
           if next.time < c.time + delay then none
           else fire_result delay calls c
       | some c, none => fire_result delay calls c
       | none, _ => (none : Option α)) = none := by
    intro i hi
    have him : i < m := List.mem_range.mp hi
    have hi1 : i + 1 < calls.length := by omega
    have hi0 : i < calls.length := by omega
    rw [List.getElem?_eq_getElem hi0, List.getElem?_eq_getElem hi1]
    show (if calls[i + 1].time < calls[i].time + delay then none
          else fire_result delay calls calls[i]) = none
    have hcmem : calls[i] ∈ calls := List.getElem_mem hi0
    have hnmem : calls[i + 1] ∈ calls := List.getElem_mem hi1
    rw [if_pos (by
      have h1 := hA _ hnmem
      have h2 := hB _ hcmem
      linarith)]
  have hlast_idx : calls[m]? = some (calls.getLast hne) := by
    have h1 : calls[m]? = calls.getLast? := by
      rw [List.getLast?_eq_getElem? calls, hm]
      simp
    rw [h1, List.getLast?_eq_getLast calls hne]
  have hnone_next : calls[m + 1]? = none :=
    List.getElem?_eq_none (by omega)
  have hsingle :
      (match calls[m]?, calls[m + 1]? with
       | some c, some next =>
           if next.time < c.time + delay then none
           else fire_result delay calls c
       | some c, none => fire_result delay calls c
       | none, _ => (none : Option α)) = some (calls.getLast hne).data := by
    rw [hlast_idx, hnone_next]
    exact hfire
  unfold debounce_emissions
  rw [hm, List.range_succ, List.filterMap_append,
    List.filterMap_eq_nil_iff.mpr hnone]
  simp only [List.filterMap_cons, List.filterMap_nil]
  rw [hsingle]
  rfl

/-- Ten rapid calls, 0.01 s apart (all within a 0.1 s window), payloads
1 through 10. -/
def burstCalls : List (DebCall Nat) :=
  [{ time := 0, data := 1 }, { time := 1/100, data := 2 },
   { time := 2/100, data := 3 }, { time := 3/100, data := 4 },
   { time := 4/100, data := 5 }, { time := 5/100, data := 6 },
   { time := 6/100, data := 7 }, { time := 7/100, data := 8 },
   { time := 8/100, data := 9 }, { time := 9/100, data := 10 }]

/-- Witness for C8: the ten rapid calls with delay 0.5 s produce exactly
one downstream emission, carrying the tenth payload. -/
theorem c8_witness :
    burstCalls ≠ []
    ∧ burstCalls.Chain' (fun a b => a.time ≤ b.time)
    ∧ debounce_emissions (1/2) burstCalls = [10] := by
  have hne : burstCalls ≠ [] := by simp [burstCalls]
  have hch : burstCalls.Chain' (fun a b => a.time ≤ b.time) := by
    unfold burstCalls
    norm_num [List.chain'_cons, List.chain'_singleton]
  have hlast : burstCalls.getLast hne = { time := 9/100, data := 10 } := rfl
  have hhead : burstCalls.head hne = { time := 0, data := 1 } := rfl
  have hwin : (burstCalls.getLast hne).time
      < (burstCalls.head hne).time + 1/2 := by
    rw [hlast, hhead]
    norm_num
  refine ⟨hne, hch, ?_⟩
  rw [c8_debounce_burst_single_emission (1/2) burstCalls hne hch hwin, hlast]
